import Mathlib

/-!
# VeilSync — verification of the staged process simulator and analysis client

Shallow embedding of the core logic of the PhantomV VeilSync repository:

* the Log Store and Stage Simulator (`handleStartSync` in the main app
  component), which replays a fixed 9-stage script against the current
  payload, appending a `pending` entry per stage and then replacing it by a
  copy bearing the terminal status of the stage;
* the Analysis Client (`handleAnalyze` / `isImageAnalysis` in
  `DataAnalyzer.tsx`), which issues at most one request to an external
  generative model and classifies the parsed JSON response structurally;
* the update-check state machine (`checkForUpdates` / `handleSnooze`).

JavaScript `number` ids produced by `Date.now() + Math.random()` are modelled
by a fresh `Nat` counter: the only property the code relies on is that each
new id differs from every id already in the store, which the counter gives by
construction.  JavaScript truthiness of the nullable strings involved is
modelled explicitly (`null`/`""`/`0` falsy).  External effects (the network
response of the analysis request, the fetch outcome of the update check) are
oracle parameters, and the requests issued are recorded in the result so that
"no outbound request" is a provable statement.
-/

namespace VeilSync

/-! ## Data model (`types.ts`) -/

/-- `LogStatus` from `types.ts`: one of `pending`, `success`, `error`, `info`. -/
inductive LogStatus where
  | pending
  | success
  | error
  | info
deriving DecidableEq, Repr

/-- `LogEntry` from `types.ts`. -/
structure LogEntry where
  id : Nat
  message : String
  status : LogStatus
deriving DecidableEq, Repr

/-- The image payload held in the `imageData` state variable. -/
structure ImageData where
  url : String
  base64 : String
  mimeType : String
  name : String
deriving DecidableEq, Repr

/-- One entry of the `steps` script in `handleStartSync`. -/
structure Step where
  msg : String
  delay : Nat
  status : LogStatus
deriving DecidableEq, Repr

/-! ## JavaScript truthiness helpers -/

/-- Truthiness of a `string | null` value: `null` and `""` are falsy. -/
def optStrTruthy : Option String → Bool
  | none => false
  | some s => s ≠ ""

/-- JS `a || b` where `a : string | null | undefined` and `b : string`. -/
def jsOrStr : Option String → String → String
  | none, d => d
  | some s, d => if s = "" then d else s

/-- JS `a || b` where `a : number | undefined` and `b : number` (0 falsy). -/
def jsOrNat : Option Nat → Nat → Nat
  | none, d => d
  | some n, d => if n = 0 then d else n

/-! ## Stage Simulator (`handleStartSync`, App component) -/

/-- The `dataName` local: image name, else file name, else `Pasted Content` (JS `||`). -/
def dataName (imageData : Option ImageData) (fileName : Option String) : String :=
  jsOrStr (imageData.map (·.name)) (jsOrStr fileName "Pasted Content")

/-- The `dataSize` local: `Image Data` for an image, else the character count of the file content (or, when that is 0 or absent, of the pasted content) followed by ` chars`. -/
def dataSize (imageData : Option ImageData) (fileContent : Option String)
    (pastedContent : String) : String :=
  match imageData with
  | some _ => "Image Data"
  | none => toString (jsOrNat (fileContent.map (·.length)) pastedContent.length) ++ " chars"

/-- The fixed 9-stage script built inside `handleStartSync`. -/
def syncSteps (name size : String) : List Step :=
  [ ⟨"INITIALIZING PHANTOM_V RUNTIME", 1000, .info⟩,
    ⟨"PROCESSING DATA: " ++ name, 1000, .info⟩,
    ⟨"ESTABLISHING SECURE CONNECTION", 1500, .info⟩,
    ⟨"ANALYZING DATA STRUCTURE", 1200, .info⟩,
    ⟨"ATTEMPTING KERNEL-LEVEL SYNC", 2000, .info⟩,
    ⟨"SYNC FAILED: ACCESS RESTRICTED.", 800, .error⟩,
    ⟨"FALLBACK TO PAYLOAD INJECTION", 1500, .info⟩,
    ⟨"SUCCESS: " ++ size ++ " SYNCED.", 1000, .success⟩,
    ⟨"SYNC COMPLETE. STANDBY.", 500, .success⟩ ]

/-- `currentLogs.map(l => l.id === id ? {...l, status} : l)` — the status
update step of the simulator loop. -/
def replaceStatus (logs : List LogEntry) (id : Nat) (st : LogStatus) : List LogEntry :=
  logs.map (fun l => if l.id = id then { l with status := st } else l)

/-- The simulator loop of `handleStartSync`: for each step, append a
`pending` entry with a fresh id, then replace the status of that entry by
the terminal status of the step.  Returns the final log list and the next
fresh id. -/
def runSteps : List Step → List LogEntry → Nat → List LogEntry × Nat
  | [], logs, ctr => (logs, ctr)
  | s :: rest, logs, ctr =>
      let pendingLog : LogEntry := ⟨ctr, s.msg, .pending⟩
      let logs1 := logs ++ [pendingLog]
      let logs2 := replaceStatus logs1 ctr s.status
      runSteps rest logs2 (ctr + 1)

/-- The sequence of `setLogs` snapshots produced by the simulator loop: each
step publishes the list with its new `pending` entry, then the list with that
status of that entry replaced by the terminal status. -/
def runStepsTrace : List Step → List LogEntry → Nat → List (List LogEntry)
  | [], _, _ => []
  | s :: rest, logs, ctr =>
      let pendingLog : LogEntry := ⟨ctr, s.msg, .pending⟩
      let logs1 := logs ++ [pendingLog]
      let logs2 := replaceStatus logs1 ctr s.status
      logs1 :: logs2 :: runStepsTrace rest logs2 (ctr + 1)

/-- The entries a run creates for a script, each already bearing its terminal
status, with ids counted from `ctr`. -/
def doneEntries : List Step → Nat → List LogEntry
  | [], _ => []
  | s :: rest, ctr => ⟨ctr, s.msg, s.status⟩ :: doneEntries rest (ctr + 1)

/-- Trailing log message appended after the run, by session persistence. -/
def persistMsg (isSessionPersistent : Bool) : String :=
  if isSessionPersistent then "SESSION PERSISTENCE ENABLED."
  else "SESSION PERSISTENCE DISABLED. CLEARING INPUT ON NEXT ACTION."

/-- The component state touched by `handleStartSync`. -/
structure SyncState where
  logs : List LogEntry
  isSyncing : Bool
  syncCompleted : Bool
deriving DecidableEq, Repr

/-- The run-precondition of `handleStartSync`, as the code tests it:
`isSyncing || (!fileContent && !pastedContent && !imageData)` rejects. -/
def payloadPresent (fileContent : Option String) (pastedContent : String)
    (imageData : Option ImageData) : Bool :=
  optStrTruthy fileContent || pastedContent ≠ "" || imageData.isSome

/-- `handleStartSync`: reject when already syncing or no payload; otherwise
clear the log store, replay the 9-stage script, then append the trailing
session-persistence entry.  `ctr` is the fresh-id source. -/
def handleStartSync (fileContent : Option String) (pastedContent : String)
    (imageData : Option ImageData) (fileName : Option String)
    (isSessionPersistent : Bool) (ctr : Nat) (st : SyncState) : SyncState :=
  if st.isSyncing || !payloadPresent fileContent pastedContent imageData then st
  else
    let stepsL := syncSteps (dataName imageData fileName)
      (dataSize imageData fileContent pastedContent)
    let r := runSteps stepsL [] ctr
    { logs := r.1 ++ [⟨r.2, persistMsg isSessionPersistent, .info⟩],
      isSyncing := false,
      syncCompleted := true }

/-! ## Analysis Client (`DataAnalyzer.tsx`) -/

/-- JSON values, as produced by `JSON.parse` on the response body. -/
inductive Json where
  | null
  | bool (b : Bool)
  | num (n : Int)
  | str (s : String)
  | arr (xs : List Json)
  | obj (fields : List (String × Json))

/-- Property access `result.key` on a parsed JSON value: defined (as a JSON
value) only when `result` is an object with that key; `undefined` otherwise. -/
def Json.getField : Json → String → Option Json
  | .obj fields, k => fields.lookup k
  | _, _ => none

/-- JavaScript truthiness of a parsed JSON value (`result && ...`). -/
def Json.truthy : Json → Bool
  | .null => false
  | .bool b => b
  | .num n => n ≠ 0
  | .str s => s ≠ ""
  | .arr _ => true
  | .obj _ => true

/-- The check `typeof x === "string"` (as in the source, with single quotes) on a possibly-undefined property. -/
def isStrField : Option Json → Bool
  | some (.str _) => true
  | _ => false

/-- `Array.isArray(x)` on a possibly-undefined property. -/
def isArrField : Option Json → Bool
  | some (.arr _) => true
  | _ => false

/-- `isImageAnalysis` from `DataAnalyzer.tsx`:
the conjunction of truthiness of `result`, `description` being a string, and `tags` being an array. -/
def isImageAnalysis (result : Json) : Bool :=
  result.truthy && isStrField (result.getField "description")
    && isArrField (result.getField "tags")

/-- The two result variants the renderer dispatches between. -/
inductive AnalysisKind where
  | image
  | text
deriving DecidableEq, Repr

/-- The dispatch of the renderer on a stored analysis: `isImageAnalysis(analysis)`
decides the variant from the response shape alone. -/
def classify (result : Json) : AnalysisKind :=
  if isImageAnalysis result then .image else .text

/-- The declared response schema sent with a request: the names of the
fields the schema marks `required`. -/
structure ReqSchema where
  requiredFields : List String
deriving DecidableEq, Repr

/-- An outbound request to the generative model, as built by `handleAnalyze`:
either the image variant (inline image data plus the instruction text) or the
text variant (payload embedded in a prompt). -/
inductive Request where
  | imageReq (mimeType : String) (base64 : String) (schema : ReqSchema)
  | textReq (contents : String) (schema : ReqSchema)
deriving DecidableEq, Repr

/-- Schema of the image request: required fields `description`, `tags`, `anomaly`. -/
def imageSchema : ReqSchema := ⟨["description", "tags", "anomaly"]⟩

/-- Schema of the text request: required fields `dataType`, `summary`, `risks`. -/
def textSchema : ReqSchema := ⟨["dataType", "summary", "risks"]⟩

/-- The request `handleAnalyze` builds for an image payload. -/
def imageRequest (img : ImageData) : Request :=
  .imageReq img.mimeType img.base64 imageSchema

/-- The request `handleAnalyze` builds for a text payload. -/
def textRequest (textContent : String) : Request :=
  .textReq ("Analyze the following data payload. Data: \n\n" ++ textContent) textSchema

/-- Oracle for the outcome of one `generateContent` call: the SDK call
throws (network failure or non-success transport status), or it returns a
body whose `JSON.parse` throws, or parsing yields a JSON value. -/
inductive RespBehavior where
  | transportFail
  | parseFail
  | parsed (j : Json)

/-- The error message set by the single `catch` block of `handleAnalyze`. -/
def analysisFailedMsg : String :=
  "Analysis failed. The AI core might be offline or the data payload is corrupted."

/-- Outcome of one `handleAnalyze` invocation: the outbound requests it
issued, and the `analysis` / `error` state it leaves behind (`isLoading` is
back to `false` in every case, via `finally`). -/
structure AnalyzeOutcome where
  requests : List Request
  analysis : Option Json
  error : Option String

/-- `handleAnalyze` from `DataAnalyzer.tsx`.  Dispatch: `if (imageData)`
issues the image request, `else if (textContent)` (truthiness: `null` and
`""` fail) issues the text request, else throws before any request; the one
`catch` maps every failure to the same opaque error, and a successful parse
stores the JSON unvalidated via `setAnalysis(resultJson)`. -/
def handleAnalyze (imageData : Option ImageData) (textContent : Option String)
    (resp : RespBehavior) : AnalyzeOutcome :=
  match imageData with
  | some img =>
      match resp with
      | .parsed j => ⟨[imageRequest img], some j, none⟩
      | _ => ⟨[imageRequest img], none, some analysisFailedMsg⟩
  | none =>
      match textContent with
      | some t =>
          if t ≠ "" then
            match resp with
            | .parsed j => ⟨[textRequest t], some j, none⟩
            | _ => ⟨[textRequest t], none, some analysisFailedMsg⟩
          else ⟨[], none, some analysisFailedMsg⟩
      | none => ⟨[], none, some analysisFailedMsg⟩

/-! ## Update-check state machine (`checkForUpdates` / `handleSnooze`) -/

/-- The state the update checker reads and writes: the revision recorded in
`sessionStorage` (`currentCommitSha`), the snooze deadline, whether the
update modal is shown, and an instrumentation counter of how many times a
notification was raised (`setShowUpdateModal(true)` plus the audible alert). -/
structure UpdateState where
  storedSha : Option String
  snoozeUntil : Option Nat
  showUpdateModal : Bool
  notificationsRaised : Nat
deriving DecidableEq, Repr

/-- Oracle for the fetch of the latest commit: failure (network error or
non-ok status, all thrown and swallowed by the `catch`) or a revision sha. -/
inductive FetchResult where
  | fetchErr
  | ok (sha : String)
deriving DecidableEq, Repr

/-- The snooze guard of `checkForUpdates`:
`snoozeUntil && Date.now() < snoozeUntil` (JS truthiness: `0` falsy). -/
def snoozeActive (now : Nat) : Option Nat → Bool
  | none => false
  | some t => decide (t ≠ 0) && decide (now < t)

/-- `checkForUpdates`: when snoozed, return before fetching; a fetch failure
is logged and ignored.  The stored revision is read back as `string | null`,
and the code tests `if (!currentCommitSha)` — JS truthiness, so a stored
empty string counts as no stored revision and is re-recorded; only
`else if (currentCommitSha !== latestCommitSha)`, i.e. a truthy stored sha
differing from the fetched one, raises the notification. -/
def checkForUpdates (now : Nat) (fr : FetchResult) (st : UpdateState) : UpdateState :=
  if snoozeActive now st.snoozeUntil then st
  else
    match fr with
    | .fetchErr => st
    | .ok sha =>
        match st.storedSha with
        | none => { st with storedSha := some sha }
        | some cur =>
            if cur = "" then { st with storedSha := some sha }
            else if cur ≠ sha then
              { st with showUpdateModal := true,
                        notificationsRaised := st.notificationsRaised + 1 }
            else st

/-- `handleSnooze(minutes)`: record `Date.now() + minutes * 60 * 1000` as the
snooze deadline and hide the modal. -/
def handleSnooze (now minutes : Nat) (st : UpdateState) : UpdateState :=
  { st with snoozeUntil := some (now + minutes * 60 * 1000),
            showUpdateModal := false }

/-! ## Lemmas about the simulator loop -/

/-- A status update targeting an id absent from the prefix rewrites only the
freshly appended entry. -/
lemma replaceStatus_append_fresh (logs : List LogEntry) (ctr : Nat) (m : String)
    (stt : LogStatus) (h : ∀ l ∈ logs, l.id ≠ ctr) :
    replaceStatus (logs ++ [⟨ctr, m, .pending⟩]) ctr stt = logs ++ [⟨ctr, m, stt⟩] := by
  unfold replaceStatus
  rw [List.map_append]
  have h1 : logs.map (fun l => if l.id = ctr then { l with status := stt } else l) = logs := by
    conv_rhs => rw [← List.map_id logs]
    exact List.map_congr_left (fun l hl => by simp [h l hl])
  rw [h1]
  simp

/-- Characterization of the simulator loop: it appends, to the incoming log
list, one entry per step bearing the terminal status of that step, and
advances the fresh-id counter by the number of steps. -/
lemma runSteps_eq : ∀ (stepsL : List Step) (logs : List LogEntry) (ctr : Nat),
    (∀ l ∈ logs, l.id < ctr) →
    runSteps stepsL logs ctr = (logs ++ doneEntries stepsL ctr, ctr + stepsL.length)
  | [], logs, ctr, _ => by simp [runSteps, doneEntries]
  | s :: rest, logs, ctr, h => by
      have hfresh : ∀ l ∈ logs, l.id ≠ ctr := fun l hl => Nat.ne_of_lt (h l hl)
      have hrw := replaceStatus_append_fresh logs ctr s.msg s.status hfresh
      have hinv : ∀ l ∈ logs ++ [(⟨ctr, s.msg, s.status⟩ : LogEntry)], l.id < ctr + 1 := by
        intro l hl
        rcases List.mem_append.mp hl with hl | hl
        · exact Nat.lt_succ_of_lt (h l hl)
        · simp at hl; simp [hl]
      have ih := runSteps_eq rest (logs ++ [⟨ctr, s.msg, s.status⟩]) (ctr + 1) hinv
      simp only [runSteps, hrw, ih, doneEntries, List.append_assoc, List.singleton_append,
        List.length_cons, Prod.mk.injEq]
      exact ⟨by trivial, by omega⟩

/-- The message/terminal-status pairs of the created entries are exactly the
message/terminal-status pairs of the script, in script order. -/
lemma doneEntries_map_msg_status : ∀ (stepsL : List Step) (ctr : Nat),
    (doneEntries stepsL ctr).map (fun l => (l.message, l.status))
      = stepsL.map (fun s => (s.msg, s.status))
  | [], _ => rfl
  | s :: rest, ctr => by
      simp [doneEntries, doneEntries_map_msg_status rest (ctr + 1)]

/-- The statuses of the created entries are the terminal statuses of the
script, in script order. -/
lemma doneEntries_map_status : ∀ (stepsL : List Step) (ctr : Nat),
    (doneEntries stepsL ctr).map (·.status) = stepsL.map (·.status)
  | [], _ => rfl
  | s :: rest, ctr => by
      simp [doneEntries, doneEntries_map_status rest (ctr + 1)]

/-! ## C1 and C3: run completeness and precondition rejection -/

/-- C1. For every non-empty payload (and no run active), the Stage Simulator
leaves the Log Store holding exactly one terminal entry per script stage, in
script order — the scripted `error` stage included, i.e. it does not abort —
followed by the trailing session-persistence `info` entry: for the fixed
9-stage script the store ends with the 9 scripted (message, status) pairs in
order, statuses `info, info, info, info, info, error, info, success, success`
(last scripted status `success`), plus the trailing `info` entry.  The first
conjunct states the per-stage correspondence for an arbitrary script. -/
theorem simulator_run_one_terminal_entry_per_stage
    (fc : Option String) (pc : String) (img : Option ImageData) (fn : Option String)
    (persist : Bool) (ctr : Nat) (st : SyncState)
    (hsync : st.isSyncing = false)
    (hpay : payloadPresent fc pc img = true) :
    (∀ (stepsL : List Step) (c : Nat),
      (runSteps stepsL [] c).1.map (fun l => (l.message, l.status))
        = stepsL.map (fun s => (s.msg, s.status)))
    ∧ (handleStartSync fc pc img fn persist ctr st).logs.map (fun l => (l.message, l.status))
      = (syncSteps (dataName img fn) (dataSize img fc pc)).map (fun s => (s.msg, s.status))
        ++ [(persistMsg persist, .info)]
    ∧ (handleStartSync fc pc img fn persist ctr st).logs.map (·.status)
      = [.info, .info, .info, .info, .info, .error, .info, .success, .success, .info] := by
  have hrun : ∀ (stepsL : List Step) (c : Nat),
      runSteps stepsL [] c = (doneEntries stepsL c, c + stepsL.length) := by
    intro stepsL c
    simpa using runSteps_eq stepsL [] c (by simp)
  have hlogs : (handleStartSync fc pc img fn persist ctr st).logs
      = doneEntries (syncSteps (dataName img fn) (dataSize img fc pc)) ctr
        ++ [⟨ctr + 9, persistMsg persist, .info⟩] := by
    unfold handleStartSync
    rw [hsync, hpay]
    simp [hrun, syncSteps]
  refine ⟨fun stepsL c => by rw [hrun]; exact doneEntries_map_msg_status stepsL c, ?_, ?_⟩
  · rw [hlogs]
    simp [doneEntries_map_msg_status]
  · rw [hlogs]
    simp only [List.map_append, doneEntries_map_status]
    rfl

/-- Witness for C1 at the scenario payload: pasted text `hello world`. -/
theorem simulator_run_one_terminal_entry_per_stage_witness :
    (handleStartSync none "hello world" none none false 0
        ⟨[], false, false⟩).logs.map (·.status)
      = [.info, .info, .info, .info, .info, .error, .info, .success, .success, .info] :=
  (simulator_run_one_terminal_entry_per_stage none "hello world" none none false 0
    ⟨[], false, false⟩ rfl (by decide)).2.2

/-- C3. Invoking the run trigger while a run is already active, or with no
payload (no file content, no pasted content, no image), returns with the
whole state unchanged: the Log Store is not mutated and no second sequence
starts. -/
theorem start_sync_rejected_when_active_or_no_payload
    (fc : Option String) (pc : String) (img : Option ImageData) (fn : Option String)
    (persist : Bool) (ctr : Nat) (st : SyncState)
    (h : st.isSyncing = true ∨ payloadPresent fc pc img = false) :
    handleStartSync fc pc img fn persist ctr st = st := by
  unfold handleStartSync
  rcases h with h | h <;> simp [h]

/-- Witness for C3: a run already active, and separately an empty payload. -/
theorem start_sync_rejected_when_active_or_no_payload_witness :
    handleStartSync none "hello" none none false 0 ⟨[], true, false⟩ = ⟨[], true, false⟩
    ∧ handleStartSync none "" none none false 0 ⟨[], false, false⟩ = ⟨[], false, false⟩ :=
  ⟨start_sync_rejected_when_active_or_no_payload none "hello" none none false 0
      ⟨[], true, false⟩ (Or.inl rfl),
    start_sync_rejected_when_active_or_no_payload none "" none none false 0
      ⟨[], false, false⟩ (Or.inr (by decide))⟩

/-! ## Lemmas about the snapshot trace of a run -/

/-- A status update preserves the length of the log list. -/
lemma replaceStatus_length (logs : List LogEntry) (i : Nat) (stt : LogStatus) :
    (replaceStatus logs i stt).length = logs.length := by
  simp [replaceStatus]

/-- A status update acts positionally: each position holds its old entry,
with only the status changed when the id at that position matches. -/
lemma replaceStatus_getElem? (logs : List LogEntry) (i : Nat) (stt : LogStatus) (k : Nat) :
    (replaceStatus logs i stt)[k]? =
      (logs[k]?).map (fun l => if l.id = i then { l with status := stt } else l) := by
  simp [replaceStatus]

/-- A run over a script creates one entry per step. -/
lemma doneEntries_length : ∀ (stepsL : List Step) (ctr : Nat),
    (doneEntries stepsL ctr).length = stepsL.length
  | [], _ => rfl
  | s :: rest, ctr => by simp [doneEntries, doneEntries_length rest (ctr + 1)]

/-- The entry at position `k` among the created entries is built from the
step at position `k` of the script. -/
lemma doneEntries_getElem? : ∀ (stepsL : List Step) (ctr k : Nat),
    (doneEntries stepsL ctr)[k]? =
      (stepsL[k]?).map (fun s => (⟨ctr + k, s.msg, s.status⟩ : LogEntry))
  | [], _, _ => by simp [doneEntries]
  | s :: rest, ctr, 0 => by simp [doneEntries]
  | s :: rest, ctr, (k + 1) => by
      have h : ctr + 1 + k = ctr + (k + 1) := by omega
      simp [doneEntries, doneEntries_getElem? rest (ctr + 1) k, h]

/-- Each step publishes two snapshots. -/
lemma runStepsTrace_length : ∀ (stepsL : List Step) (logs : List LogEntry) (ctr : Nat),
    (runStepsTrace stepsL logs ctr).length = 2 * stepsL.length
  | [], _, _ => rfl
  | s :: rest, logs, ctr => by
      simp [runStepsTrace, runStepsTrace_length rest _ _]
      omega

/-- Snapshot `2q` of a run: the first `q` stages hold their terminal status,
and stage `q` was just appended as `pending`. -/
lemma runStepsTrace_snap_even : ∀ (stepsL : List Step) (logs : List LogEntry)
    (ctr q : Nat) (s : Step), (∀ l ∈ logs, l.id < ctr) → stepsL[q]? = some s →
    (runStepsTrace stepsL logs ctr)[2 * q]? =
      some (logs ++ doneEntries (stepsL.take q) ctr ++ [⟨ctr + q, s.msg, .pending⟩])
  | [], _, _, q, s, _, hq => by simp at hq
  | st0 :: rest, logs, ctr, 0, s, hfr, hq => by
      simp only [List.getElem?_cons_zero, Option.some.injEq] at hq
      subst hq
      simp [runStepsTrace, doneEntries]
  | st0 :: rest, logs, ctr, (q + 1), s, hfr, hq => by
      have hfresh : ∀ l ∈ logs, l.id ≠ ctr := fun l hl => Nat.ne_of_lt (hfr l hl)
      have hrw := replaceStatus_append_fresh logs ctr st0.msg st0.status hfresh
      have hinv : ∀ l ∈ logs ++ [(⟨ctr, st0.msg, st0.status⟩ : LogEntry)], l.id < ctr + 1 := by
        intro l hl
        rcases List.mem_append.mp hl with hl | hl
        · exact Nat.lt_succ_of_lt (hfr l hl)
        · simp at hl; simp [hl]
      have hq1 : rest[q]? = some s := by simpa using hq
      have ih := runStepsTrace_snap_even rest (logs ++ [⟨ctr, st0.msg, st0.status⟩])
        (ctr + 1) q s hinv hq1
      have h2 : 2 * (q + 1) = 2 * q + 1 + 1 := by omega
      have h3 : ctr + 1 + q = ctr + (q + 1) := by omega
      rw [h2]
      simp only [runStepsTrace, hrw, List.getElem?_cons_succ]
      rw [ih, h3]
      simp [doneEntries, List.take_succ_cons]

/-- Snapshot `2q + 1` of a run: the first `q + 1` stages hold their terminal
status. -/
lemma runStepsTrace_snap_odd : ∀ (stepsL : List Step) (logs : List LogEntry)
    (ctr q : Nat), (∀ l ∈ logs, l.id < ctr) → q < stepsL.length →
    (runStepsTrace stepsL logs ctr)[2 * q + 1]? =
      some (logs ++ doneEntries (stepsL.take (q + 1)) ctr)
  | [], _, _, q, _, hq => by simp at hq
  | st0 :: rest, logs, ctr, 0, hfr, _ => by
      have hfresh : ∀ l ∈ logs, l.id ≠ ctr := fun l hl => Nat.ne_of_lt (hfr l hl)
      have hrw := replaceStatus_append_fresh logs ctr st0.msg st0.status hfresh
      simp [runStepsTrace, hrw, doneEntries]
  | st0 :: rest, logs, ctr, (q + 1), hfr, hq => by
      have hfresh : ∀ l ∈ logs, l.id ≠ ctr := fun l hl => Nat.ne_of_lt (hfr l hl)
      have hrw := replaceStatus_append_fresh logs ctr st0.msg st0.status hfresh
      have hinv : ∀ l ∈ logs ++ [(⟨ctr, st0.msg, st0.status⟩ : LogEntry)], l.id < ctr + 1 := by
        intro l hl
        rcases List.mem_append.mp hl with hl | hl
        · exact Nat.lt_succ_of_lt (hfr l hl)
        · simp at hl; simp [hl]
      have hq1 : q < rest.length := by simpa using hq
      have ih := runStepsTrace_snap_odd rest (logs ++ [⟨ctr, st0.msg, st0.status⟩])
        (ctr + 1) q hinv hq1
      have h2 : 2 * (q + 1) + 1 = (2 * q + 1) + 1 + 1 := by omega
      rw [h2]
      simp only [runStepsTrace, hrw, List.getElem?_cons_succ]
      rw [ih]
      simp [doneEntries, List.take_succ_cons]

/-! ## C7: status updates are id-targeted copies, applied exactly once -/

/-- C7. First conjunct (the update operation itself, `currentLogs.map(...)`):
a status update leaves the length unchanged and, at every position, keeps the
old entry verbatim unless its id matches, in which case it is replaced by a
copy of the same entry — same id, same message, same position — bearing the
new status; every other entry is unchanged.  Second conjunct (the run): in
the published snapshot sequence of a run, the entry of stage `k` does not
exist before snapshot `2k`, appears at snapshot `2k` with status `pending`,
and holds the scripted terminal status of stage `k` at every later snapshot —
so its status is mutated exactly once, from `pending` to a terminal status. -/
theorem status_update_replaces_by_id_once :
    (∀ (logs : List LogEntry) (i : Nat) (stt : LogStatus),
      (replaceStatus logs i stt).length = logs.length ∧
      ∀ k : Nat, (replaceStatus logs i stt)[k]? =
        (logs[k]?).map (fun l => if l.id = i then { l with status := stt } else l))
    ∧ (∀ (stepsL : List Step) (ctr k : Nat) (s : Step), stepsL[k]? = some s →
      ∀ (j : Nat) (snap : List LogEntry),
        (runStepsTrace stepsL [] ctr)[j]? = some snap →
        snap[k]? = if j < 2 * k then none
          else if j = 2 * k then some ⟨ctr + k, s.msg, LogStatus.pending⟩
          else some ⟨ctr + k, s.msg, s.status⟩) := by
  constructor
  · intro logs i stt
    exact ⟨replaceStatus_length logs i stt, fun k => replaceStatus_getElem? logs i stt k⟩
  · intro stepsL ctr k s hk j snap hsnap
    have hkn : k < stepsL.length := by
      by_contra hge
      push_neg at hge
      rw [List.getElem?_eq_none hge] at hk
      simp at hk
    have hjn : j < 2 * stepsL.length := by
      by_contra hge
      push_neg at hge
      rw [List.getElem?_eq_none (by rwa [runStepsTrace_length])] at hsnap
      simp at hsnap
    obtain ⟨q, hj | hj⟩ := Nat.even_or_odd' j
    · subst hj
      have hqn : q < stepsL.length := by omega
      obtain ⟨sq, hsq⟩ : ∃ t, stepsL[q]? = some t := by
        cases hq2 : stepsL[q]? with
        | none =>
            rw [List.getElem?_eq_none_iff] at hq2
            omega
        | some t => exact ⟨t, rfl⟩
      have heven := runStepsTrace_snap_even stepsL [] ctr q sq (by simp) hsq
      rw [heven] at hsnap
      obtain rfl : snap = ([] : List LogEntry) ++ doneEntries (stepsL.take q) ctr
          ++ [⟨ctr + q, sq.msg, .pending⟩] := by
        injection hsnap with h
        exact h.symm
      have hlenD : (doneEntries (stepsL.take q) ctr).length = q := by
        rw [doneEntries_length, List.length_take]
        exact Nat.min_eq_left (Nat.le_of_lt hqn)
      rcases Nat.lt_trichotomy k q with hkq | hkq | hkq
      · rw [if_neg (by omega), if_neg (by omega), List.nil_append,
          List.getElem?_append_left (by omega), doneEntries_getElem?,
          List.getElem?_take, if_pos hkq, hk]
        rfl
      · subst hkq
        rw [hk] at hsq
        injection hsq with hs
        have hconcat := List.getElem?_concat_length
          (doneEntries (stepsL.take k) ctr) (⟨ctr + k, sq.msg, .pending⟩ : LogEntry)
        rw [hlenD] at hconcat
        rw [if_neg (by omega), if_pos rfl, List.nil_append, hs]
        exact hconcat
      · rw [if_pos (by omega)]
        apply List.getElem?_eq_none
        simp only [List.nil_append, List.length_append, hlenD, List.length_singleton]
        omega
    · subst hj
      have hqn : q < stepsL.length := by omega
      have hodd := runStepsTrace_snap_odd stepsL [] ctr q (by simp) hqn
      rw [hodd] at hsnap
      obtain rfl : snap = ([] : List LogEntry) ++ doneEntries (stepsL.take (q + 1)) ctr := by
        injection hsnap with h
        exact h.symm
      have hlenD : (doneEntries (stepsL.take (q + 1)) ctr).length = q + 1 := by
        rw [doneEntries_length, List.length_take]
        exact Nat.min_eq_left hqn
      rcases Nat.lt_or_ge k (q + 1) with hkq | hkq
      · rw [if_neg (by omega), if_neg (by omega), List.nil_append,
          doneEntries_getElem?, List.getElem?_take, if_pos hkq, hk]
        rfl
      · rw [if_pos (by omega)]
        apply List.getElem?_eq_none
        simp only [List.nil_append, hlenD]
        omega

/-- Witness for C7: a one-stage script; snapshot 1 holds the entry with its
terminal status at position 0. -/
theorem status_update_replaces_by_id_once_witness :
    ([(⟨0, "a", LogStatus.info⟩ : LogEntry)])[0]? =
      (if 1 < 2 * 0 then none
       else if 1 = 2 * 0 then some (⟨0 + 0, "a", LogStatus.pending⟩ : LogEntry)
       else some (⟨0 + 0, "a", LogStatus.info⟩ : LogEntry)) :=
  status_update_replaces_by_id_once.2 [⟨"a", 1, .info⟩] 0 0 ⟨"a", 1, .info⟩ rfl 1
    [⟨0, "a", LogStatus.info⟩] rfl

/-! ## C2: structural classification of the parsed response -/

/-- The string-typed-field test succeeds exactly on a present string field. -/
lemma isStrField_iff (o : Option Json) :
    isStrField o = true ↔ ∃ s, o = some (.str s) := by
  cases o with
  | none => simp [isStrField]
  | some j => cases j <;> simp [isStrField]

/-- The array-field test succeeds exactly on a present array field. -/
lemma isArrField_iff (o : Option Json) :
    isArrField o = true ↔ ∃ xs, o = some (.arr xs) := by
  cases o with
  | none => simp [isArrField]
  | some j => cases j <;> simp [isArrField]

/-- Only objects have fields. -/
lemma getField_some_obj (j : Json) (k : String) (v : Json)
    (h : j.getField k = some v) : ∃ fields, j = .obj fields := by
  cases j with
  | obj fields => exact ⟨fields, rfl⟩
  | null => simp [Json.getField] at h
  | bool b => simp [Json.getField] at h
  | num n => simp [Json.getField] at h
  | str s => simp [Json.getField] at h
  | arr xs => simp [Json.getField] at h

/-- C2. A parsed response is classified as `ImageAnalysis` if and only if it
has a string `description` field and an array `tags` field, and is treated as
`TextAnalysis` in every other case.  The classifier takes only the parsed
value — no request variant appears in it — so the classification is the same
regardless of which request was sent. -/
theorem response_classification_structural (j : Json) :
    (classify j = .image ↔
      (∃ s, j.getField "description" = some (.str s))
        ∧ (∃ xs, j.getField "tags" = some (.arr xs)))
    ∧ (classify j = .text ↔
      ¬ ((∃ s, j.getField "description" = some (.str s))
        ∧ (∃ xs, j.getField "tags" = some (.arr xs)))) := by
  have himg : isImageAnalysis j = true ↔
      (∃ s, j.getField "description" = some (.str s))
        ∧ (∃ xs, j.getField "tags" = some (.arr xs)) := by
    constructor
    · intro h
      simp only [isImageAnalysis, Bool.and_eq_true] at h
      exact ⟨(isStrField_iff _).mp h.1.2, (isArrField_iff _).mp h.2⟩
    · rintro ⟨⟨s, hs⟩, ⟨xs, hx⟩⟩
      obtain ⟨fields, rfl⟩ := getField_some_obj _ _ _ hs
      simp only [isImageAnalysis, Bool.and_eq_true]
      exact ⟨⟨rfl, (isStrField_iff _).mpr ⟨s, hs⟩⟩, (isArrField_iff _).mpr ⟨xs, hx⟩⟩
  have hcl : classify j = .image ↔ isImageAnalysis j = true := by
    unfold classify
    cases h : isImageAnalysis j <;> simp [h]
  have hcl2 : classify j = .text ↔ ¬ isImageAnalysis j = true := by
    unfold classify
    cases h : isImageAnalysis j <;> simp [h]
  exact ⟨hcl.trans himg, hcl2.trans (not_congr himg)⟩

/-- Witness for C2: a response with a string `description` and array `tags`
classifies as the image variant. -/
theorem response_classification_structural_witness :
    classify (Json.obj [("description", Json.str "d"), ("tags", Json.arr [])])
      = AnalysisKind.image :=
  (response_classification_structural _).1.mpr ⟨⟨"d", rfl⟩, ⟨[], rfl⟩⟩

/-! ## C4, C5, C6, C9, C10: acceptance, failure and precondition behaviour -/

/-- A concrete image payload. -/
def imgEx : ImageData := ⟨"data:image/png;base64,AAAA", "AAAA", "image/png", "img.png"⟩

/-- A syntactically valid image-analysis response whose `tags` array has 6
elements, one more than the documented bound. -/
def overTagsResp : Json :=
  .obj [("description", .str "a scene"),
        ("tags", .arr [.str "t1", .str "t2", .str "t3", .str "t4", .str "t5", .str "t6"]),
        ("anomaly", .str "None detected")]

/-- A syntactically valid text-analysis response whose `risks` array has 4
elements, one more than the documented bound. -/
def overRisksResp : Json :=
  .obj [("dataType", .str "Text Log"), ("summary", .str "s"),
        ("risks", .arr [.str "r1", .str "r2", .str "r3", .str "r4"])]

/-- C4 counterexample: `handleAnalyze` stores a response with 6 tags (and,
for a text payload, one with 4 risks) as the accepted analysis, with no error
and no flag — the claimed bound check does not exist in the code, which runs
`setAnalysis(resultJson)` on whatever JSON parses. -/
theorem out_of_bound_arrays_accepted :
    (handleAnalyze (some imgEx) none (.parsed overTagsResp)).analysis = some overTagsResp
    ∧ (handleAnalyze (some imgEx) none (.parsed overTagsResp)).error = none
    ∧ overTagsResp.getField "tags"
        = some (.arr [.str "t1", .str "t2", .str "t3", .str "t4", .str "t5", .str "t6"])
    ∧ ([Json.str "t1", .str "t2", .str "t3", .str "t4", .str "t5", .str "t6"].length = 6)
    ∧ (handleAnalyze none (some "hello") (.parsed overRisksResp)).analysis = some overRisksResp
    ∧ (handleAnalyze none (some "hello") (.parsed overRisksResp)).error = none
    ∧ overRisksResp.getField "risks"
        = some (.arr [.str "r1", .str "r2", .str "r3", .str "r4"])
    ∧ ([Json.str "r1", .str "r2", .str "r3", .str "r4"].length = 4) := by
  refine ⟨rfl, rfl, ?_, rfl, ?_, ?_, ?_, rfl⟩ <;> rfl

/-- C4 amended: the Analysis Client performs no bounds validation at all —
whenever a payload is present and the response parses as JSON, the parsed
value is accepted and stored unchanged as the analysis result with no error,
whatever the lengths of its `risks` or `tags` arrays. -/
theorem parsed_response_accepted_unvalidated
    (img : Option ImageData) (tc : Option String) (j : Json)
    (hpay : img.isSome = true ∨ ∃ t, tc = some t ∧ t ≠ "") :
    (handleAnalyze img tc (.parsed j)).analysis = some j
    ∧ (handleAnalyze img tc (.parsed j)).error = none := by
  cases img with
  | some i => exact ⟨rfl, rfl⟩
  | none =>
      rcases hpay with h | ⟨t, rfl, ht⟩
      · simp at h
      · simp [handleAnalyze, ht]

/-- Witness for the amended C4. -/
theorem parsed_response_accepted_unvalidated_witness :
    (handleAnalyze (some imgEx) none (.parsed overTagsResp)).analysis = some overTagsResp
    ∧ (handleAnalyze (some imgEx) none (.parsed overTagsResp)).error = none :=
  parsed_response_accepted_unvalidated (some imgEx) none overTagsResp (Or.inl rfl)

/-- C5 counterexample: for an image payload, the parsed response `{}` is
stored as the analysis result although it lacks both `description` and
`tags`; for a text payload it is stored although it lacks `dataType` and
`summary`. -/
theorem result_missing_required_fields_accepted :
    (handleAnalyze (some imgEx) none (.parsed (.obj []))).analysis = some (.obj [])
    ∧ (handleAnalyze (some imgEx) none (.parsed (.obj []))).error = none
    ∧ (Json.obj []).getField "description" = none
    ∧ (Json.obj []).getField "tags" = none
    ∧ (handleAnalyze none (some "hello") (.parsed (.obj []))).analysis = some (.obj [])
    ∧ (handleAnalyze none (some "hello") (.parsed (.obj []))).error = none
    ∧ (Json.obj []).getField "dataType" = none
    ∧ (Json.obj []).getField "summary" = none := by
  refine ⟨rfl, rfl, rfl, rfl, ?_, ?_, rfl, rfl⟩ <;> simp [handleAnalyze]

/-- C5 amended: `analyze` requests a schema marking `description`, `tags`
and `anomaly` required for an image payload, and `dataType`, `summary` and
`risks` required for a text payload, but never validates the response against
it: for both payload kinds the stored result is exactly the parsed response
JSON, present fields or not — so it may lack any of those fields. -/
theorem request_schemas_mark_fields_required
    (img : ImageData) (t : String) (ht : t ≠ "") (resp : RespBehavior) :
    (handleAnalyze (some img) none resp).requests
      = [.imageReq img.mimeType img.base64 ⟨["description", "tags", "anomaly"]⟩]
    ∧ (handleAnalyze none (some t) resp).requests
      = [.textReq ("Analyze the following data payload. Data: \n\n" ++ t)
          ⟨["dataType", "summary", "risks"]⟩]
    ∧ (∀ j, (handleAnalyze (some img) none (.parsed j)).analysis = some j
        ∧ (handleAnalyze (some img) none (.parsed j)).error = none)
    ∧ (∀ j, (handleAnalyze none (some t) (.parsed j)).analysis = some j
        ∧ (handleAnalyze none (some t) (.parsed j)).error = none) := by
  refine ⟨?_, ?_, fun j => ⟨rfl, rfl⟩, fun j => ?_⟩
  · cases resp <;> rfl
  · cases resp <;> simp [handleAnalyze, ht, textRequest, textSchema]
  · simp [handleAnalyze, ht]

/-- Witness for the amended C5. -/
theorem request_schemas_mark_fields_required_witness :
    (handleAnalyze (some imgEx) none .transportFail).requests
      = [.imageReq "image/png" "AAAA" ⟨["description", "tags", "anomaly"]⟩] :=
  (request_schemas_mark_fields_required imgEx "hello" (by decide) .transportFail).1

/-- C6. `analyze` invoked with no payload at all issues no outbound request,
stores no analysis result, and surfaces the input error synchronously (the
thrown `No content provided` lands in the same catch and shows the single
opaque error message). -/
theorem analyze_no_payload_no_request (resp : RespBehavior) :
    handleAnalyze none none resp = ⟨[], none, some analysisFailedMsg⟩ := rfl

/-- C9. Every `handleAnalyze` invocation issues at most one request (no
automatic retry); a stored analysis excludes an error (no partial result
beside the error); and a thrown request or a parse failure both surface as
the same single opaque error message with no stored result. -/
theorem analyze_failures_single_error_state
    (img : Option ImageData) (tc : Option String) (resp : RespBehavior) :
    (handleAnalyze img tc resp).requests.length ≤ 1
    ∧ ((handleAnalyze img tc resp).analysis.isSome = true →
        (handleAnalyze img tc resp).error = none)
    ∧ ((resp = .transportFail ∨ resp = .parseFail) →
        (handleAnalyze img tc resp).error = some analysisFailedMsg
        ∧ (handleAnalyze img tc resp).analysis = none) := by
  cases img with
  | some i => cases resp <;> simp [handleAnalyze]
  | none =>
      cases tc with
      | none => cases resp <;> simp [handleAnalyze]
      | some t =>
          by_cases ht : t = ""
          · subst ht
            cases resp <;> simp [handleAnalyze]
          · cases resp <;> simp [handleAnalyze, ht]

/-- Witness for C9 at a transport failure on an image payload. -/
theorem analyze_failures_single_error_state_witness :
    (handleAnalyze (some imgEx) none .transportFail).error = some analysisFailedMsg
    ∧ (handleAnalyze (some imgEx) none .transportFail).analysis = none :=
  (analyze_failures_single_error_state (some imgEx) none .transportFail).2.2
    (Or.inl rfl)

/-- C10. A payload whose text content is the empty string, with no image, is
treated exactly like an absent payload: the run trigger returns with the
state unchanged (the empty string fails the truthiness guard), and `analyze`
takes the no-content branch, issuing no request — the outcome is identical to
the one for no text at all. -/
theorem empty_text_payload_like_absent :
    (∀ (fn : Option String) (persist : Bool) (ctr : Nat) (st : SyncState),
      handleStartSync (some "") "" none fn persist ctr st = st
      ∧ handleStartSync none "" none fn persist ctr st = st)
    ∧ (∀ resp : RespBehavior,
      handleAnalyze none (some "") resp = handleAnalyze none none resp
      ∧ (handleAnalyze none (some "") resp).requests = []) := by
  constructor
  · intro fn persist ctr st
    constructor <;> simp [handleStartSync, payloadPresent, optStrTruthy]
  · intro resp
    exact ⟨rfl, rfl⟩

/-! ## C8: update-check record / notify / snooze behaviour -/

/-- C8. First check with no stored revision — as the code tests it, a falsy
`currentCommitSha`, i.e. absent or the empty string — records the fetched
revision and raises no notification (the state is otherwise unchanged).  A
later check whose truthy stored revision differs from the fetched one raises
exactly one notification.  After `snooze(10)`, a check within the next 10
minutes leaves the state entirely unchanged — no notification — whatever
revision the fetch would report. -/
theorem update_check_record_notify_snooze :
    (∀ (now : Nat) (sha : String) (st : UpdateState),
      optStrTruthy st.storedSha = false → st.snoozeUntil = none →
      checkForUpdates now (.ok sha) st = { st with storedSha := some sha })
    ∧ (∀ (now : Nat) (sha cur : String) (st : UpdateState),
      st.storedSha = some cur → cur ≠ "" → st.snoozeUntil = none → cur ≠ sha →
      checkForUpdates now (.ok sha) st
        = { st with showUpdateModal := true,
                    notificationsRaised := st.notificationsRaised + 1 })
    ∧ (∀ (st : UpdateState) (now now2 : Nat) (fr : FetchResult),
      now2 < now + 10 * 60 * 1000 →
      checkForUpdates now2 fr (handleSnooze now 10 st) = handleSnooze now 10 st) := by
  refine ⟨?_, ?_, ?_⟩
  · intro now sha st h1 h2
    cases hs : st.storedSha with
    | none => simp [checkForUpdates, snoozeActive, h2, hs]
    | some cur =>
        rw [hs] at h1
        have hcur : cur = "" := by simpa [optStrTruthy] using h1
        subst hcur
        simp [checkForUpdates, snoozeActive, h2, hs]
  · intro now sha cur st h1 hne h2 h3
    simp [checkForUpdates, snoozeActive, h1, hne, h2, h3]
  · intro st now now2 fr h
    have hcond : snoozeActive now2 (handleSnooze now 10 st).snoozeUntil = true := by
      simp [snoozeActive, handleSnooze]
      omega
    simp [checkForUpdates, hcond]

/-- Witness for C8: record on an absent revision, re-record on a stored
empty string (falsy, so no notification), notify exactly once on a truthy
differing revision, then snooze suppresses a differing revision inside the
window. -/
theorem update_check_record_notify_snooze_witness :
    checkForUpdates 0 (.ok "a") ⟨none, none, false, 0⟩ = ⟨some "a", none, false, 0⟩
    ∧ checkForUpdates 0 (.ok "a") ⟨some "", none, false, 0⟩ = ⟨some "a", none, false, 0⟩
    ∧ checkForUpdates 1 (.ok "b") ⟨some "a", none, false, 0⟩ = ⟨some "a", none, true, 1⟩
    ∧ checkForUpdates 2 (.ok "c") (handleSnooze 1 10 ⟨some "a", none, true, 1⟩)
        = handleSnooze 1 10 ⟨some "a", none, true, 1⟩ :=
  ⟨update_check_record_notify_snooze.1 0 "a" ⟨none, none, false, 0⟩ rfl rfl,
   update_check_record_notify_snooze.1 0 "a" ⟨some "", none, false, 0⟩ (by decide) rfl,
   update_check_record_notify_snooze.2.1 1 "b" "a" ⟨some "a", none, false, 0⟩ rfl
     (by decide) rfl (by decide),
   update_check_record_notify_snooze.2.2 ⟨some "a", none, true, 1⟩ 1 2 (.ok "c")
     (by omega)⟩

end VeilSync
